import Mathlib

/-!
Shallow embedding of the reorg-aware event ingestion pipeline of the
truthbounty-api repository.

Part 1 — the indexer subsystem (`src/indexer/event-indexer.service.ts`
together with the `IndexedEvent` / `IndexingState` entities).

Modelling conventions:
* TypeScript `number` fields are embedded as `Int` (all arithmetic in the
  source stays well inside the float-exact integer range).
* Database repositories are embedded as Lean lists; `findOne` becomes
  `List.find?`, `save` of a fresh entity appends, `save` of a loaded entity
  rewrites it in place.
* `Date`-valued bookkeeping columns (`createdAt`, `updatedAt`,
  `lastIndexedAt`, ...) carry no logic and are omitted from the embedding.
* Network and decoding effects are passed in as explicit oracles:
  `fetchEvents` may fail like an RPC call (`Except`), `parseLog` returns
  `none` when `ethers` decoding throws (the surrounding `catch` swallows it),
  and `getBlock` returns `none` when the provider returns `null`.
-/

set_option autoImplicit false

namespace TruthBounty

/-- Raw log as delivered by `eth_getLogs` (the fields the indexer reads). -/
structure EventLog where
  transactionHash : String
  logIndex : Int
  blockNumber : Int
  topics : List String
  data : String
  deriving DecidableEq, Repr

/-- Result of `provider.getBlock` (only the `number` field is consumed). -/
structure ChainBlock where
  number : Int
  deriving DecidableEq, Repr

/-- `EventIndexerConfig` (src/config): the knobs the pipeline reads. -/
structure EventIndexerConfig where
  chainId : Int
  confirmationsRequired : Int
  blockRangePerBatch : Int
  maxRetryAttempts : Int
  deriving DecidableEq, Repr

/-- The `status` column of `indexing_state`. -/
inductive IndexStatus where
  | idle
  | indexing
  | backfilling
  | error
  deriving DecidableEq, Repr

/-- `IndexedEvent` entity (`indexed_events` table), without the
generated id and the timestamp columns. -/
structure IndexedEvent where
  eventType : String
  contractAddress : String
  transactionHash : String
  blockNumber : Int
  logIndex : Int
  chainId : Int
  eventData : EventLog
  parsedData : List (String × String)
  confirmations : Int
  isFinalized : Bool
  isProcessed : Bool
  processingError : Option String
  retryAttempts : Int
  deriving DecidableEq, Repr

/-- `IndexingState` entity (`indexing_state` table), without the generated
id and the timestamp columns. -/
structure IndexingState where
  chainId : Int
  contractAddress : String
  eventType : String
  lastProcessedBlockNumber : Int
  lastScannedBlockNumber : Int
  lastFinalizedBlockNumber : Option Int
  status : IndexStatus
  errorMessage : Option String
  totalEventCount : Int
  processedEventCount : Int
  failedEventCount : Int
  blockRangePerBatch : Int
  confirmationsRequired : Int
  maxRetryAttempts : Int
  deriving DecidableEq, Repr

/-- The identity predicate of the existence check in `processEvent`
(`findOne` on `(transactionHash, logIndex, eventType)`). -/
def matchesIdentity (txHash : String) (logIndex : Int) (eventType : String)
    (e : IndexedEvent) : Bool :=
  e.transactionHash == txHash && e.logIndex == logIndex && e.eventType == eventType

/-- How many stored records share one `(transactionHash, logIndex, eventType)`
identity. -/
def countIdentity (store : List IndexedEvent) (txHash : String) (logIndex : Int)
    (eventType : String) : Nat :=
  (store.filter (matchesIdentity txHash logIndex eventType)).length

/-- The record built by the `eventRepository.create` call of
`processEvent`. -/
def createIndexedEvent (cfg : EventIndexerConfig)
    (contractAddress : String) (eventName : String)
    (log : EventLog) (parsed : List (String × String))
    (confirmations : Int) : IndexedEvent :=
  { eventType := eventName
    contractAddress := contractAddress
    transactionHash := log.transactionHash
    blockNumber := log.blockNumber
    logIndex := log.logIndex
    chainId := cfg.chainId
    eventData := log
    parsedData := parsed
    confirmations := confirmations
    isFinalized := decide (confirmations ≥ cfg.confirmationsRequired)
    isProcessed := false
    processingError := none
    retryAttempts := 0 }

/-- `EventIndexerService.processEvent`.

Mirrors the source: look the identity up; if present return the store
unchanged; otherwise decode (a decode failure is caught and stores
nothing), ask the provider for the block, compute
`confirmations = blockNumber - block.number` (`0` if the provider
returned `null`), and insert the new record.  `blockNumber` is the
fourth parameter of the TypeScript method, i.e. whatever value the
caller passes (the ingestion loop passes `endBlock`). -/
def processEvent (cfg : EventIndexerConfig)
    (parseLog : EventLog → Option (List (String × String)))
    (getBlock : Int → Option ChainBlock)
    (contractAddress : String) (eventName : String)
    (log : EventLog) (blockNumber : Int)
    (store : List IndexedEvent) : List IndexedEvent :=
  match store.find? (matchesIdentity log.transactionHash log.logIndex eventName) with
  | some _ => store
  | none =>
    match parseLog log with
    | none => store
    | some parsed =>
      let confirmations : Int :=
        match getBlock log.blockNumber with
        | some b => blockNumber - b.number
        | none => 0
      store ++ [createIndexedEvent cfg contractAddress eventName log parsed confirmations]

/-- `EventIndexerService.indexEventType`, for a subscription whose
`IndexingState` row exists (`st`).  Returns the updated row together with
the updated event store.

The batch window is `[startBlock, endBlock]` with
`startBlock = lastProcessedBlockNumber + 1` and
`endBlock = min (startBlock + blockRangePerBatch - 1)
              (currentBlockNumber - confirmationsRequired)`;
if the window is empty nothing happens.  On a fetch failure the row is
saved with `status = error` and the message recorded; on success every
fetched log is run through `processEvent` (with `endBlock` as its
`blockNumber` argument) and the row is saved with
`lastProcessedBlockNumber = endBlock` and `status = idle`. -/
def indexEventType (cfg : EventIndexerConfig)
    (parseLog : EventLog → Option (List (String × String)))
    (getBlock : Int → Option ChainBlock)
    (fetchEvents : Int → Int → Except String (List EventLog))
    (contractAddress : String) (eventName : String)
    (currentBlockNumber : Int)
    (st : IndexingState) (store : List IndexedEvent) :
    IndexingState × List IndexedEvent :=
  let startBlock := st.lastProcessedBlockNumber + 1
  let endBlock := min (startBlock + cfg.blockRangePerBatch - 1)
    (currentBlockNumber - cfg.confirmationsRequired)
  if startBlock > endBlock then
    (st, store)
  else
    match fetchEvents startBlock endBlock with
    | Except.error msg =>
      ({ st with status := IndexStatus.error, errorMessage := some msg }, store)
    | Except.ok events =>
      let store2 := events.foldl
        (fun acc log =>
          processEvent cfg parseLog getBlock contractAddress eventName log endBlock acc)
        store
      ({ st with lastProcessedBlockNumber := endBlock, status := IndexStatus.idle },
        store2)

/-- One step of `EventIndexerService.reconcileReorgs`: a finalized event
whose live confirmation count (`currentBlockNumber - blockNumber`) fell
below the threshold is demoted and reset; every other event is left
untouched. -/
def reconcileStep (cfg : EventIndexerConfig) (currentBlockNumber : Int)
    (e : IndexedEvent) : IndexedEvent :=
  if e.isFinalized ∧ currentBlockNumber - e.blockNumber < cfg.confirmationsRequired then
    { e with isFinalized := false, isProcessed := false,
             processingError := none, retryAttempts := 0 }
  else
    e

/-- `EventIndexerService.reconcileReorgs` (the periodic confirmation
sweep): the loop over `find({ isFinalized: true })` followed by in-place
saves is, store-wise, a pointwise map of `reconcileStep`. -/
def reconcileReorgs (cfg : EventIndexerConfig) (currentBlockNumber : Int)
    (store : List IndexedEvent) : List IndexedEvent :=
  store.map (reconcileStep cfg currentBlockNumber)

/-- The lookup predicate of `findOne` lookup in `backfillFromBlock`
(`(chainId, contractAddress)` — the event type is not part of the filter). -/
def matchesContract (cfg : EventIndexerConfig) (contractAddress : String)
    (s : IndexingState) : Bool :=
  s.chainId == cfg.chainId && s.contractAddress == contractAddress

/-- Rewrite the first element satisfying `p` in place (the effect of
`repository.save` on a row loaded with `findOne`). -/
def replaceFirst {α : Type} (p : α → Bool) (f : α → α) : List α → List α
  | [] => []
  | x :: xs => if p x then f x :: xs else x :: replaceFirst p f xs

/-- `EventIndexerService.backfillFromBlock`: find the first state row for
`(chainId, contractAddress)`; if none exists throw (leaving the store as
it was), otherwise rewind `lastProcessedBlockNumber` to `blockNumber - 1`
and set `status = backfilling`. -/
def backfillFromBlock (cfg : EventIndexerConfig) (states : List IndexingState)
    (contractAddress : String) (blockNumber : Int) :
    Except String (List IndexingState) :=
  match states.find? (matchesContract cfg contractAddress) with
  | none => Except.error ("No state found for contract " ++ contractAddress)
  | some _ =>
    Except.ok (replaceFirst (matchesContract cfg contractAddress)
      (fun st => { st with lastProcessedBlockNumber := blockNumber - 1,
                           status := IndexStatus.backfilling })
      states)

/-!
Part 2 — the blockchain subsystem
(`src/blockchain/reorg-detector.service.ts`, `src/blockchain/types.ts`,
the in-memory `BlockchainStateService` of `state.service.ts`, and
`ReconciliationService.handleReorg`).

The `BlockchainStateService` keeps its data in in-memory `Map`s; the
embedding represents them as lists in insertion order (`forEach` visits a
JavaScript `Map` in insertion order, so `find`-style scans agree).
-/

/-- `BlockInfo` from `src/blockchain/types.ts`. -/
structure BlockInfo where
  number : Int
  hash : String
  timestamp : Int
  parentHash : String
  deriving DecidableEq, Repr

/-- `BlockRecord` from `src/blockchain/types.ts` (without the `createdAt`
timestamp). -/
structure BlockRecord where
  id : String
  blockNumber : Int
  blockHash : String
  parentHash : String
  timestamp : Int
  isCanonical : Bool
  deriving DecidableEq, Repr

/-- The `status` of a `PendingEvent`. -/
inductive PendingStatus where
  | pending
  | confirmed
  | orphaned
  deriving DecidableEq, Repr

/-- `PendingEvent` from `src/blockchain/types.ts` (without the opaque
`data` payload and the timestamps). -/
structure PendingEvent where
  id : String
  blockNumber : Int
  blockHash : String
  eventType : String
  transactionHash : String
  logIndex : Int
  status : PendingStatus
  confirmations : Int
  deriving DecidableEq, Repr

/-- `ReorgEvent` from `src/blockchain/types.ts` (without `detectedAt`). -/
structure ReorgEvent where
  reorgDepth : Int
  affectedBlockStart : Int
  affectedBlockEnd : Int
  orphanedEvents : List String
  reprocessedEvents : List String
  deriving DecidableEq, Repr

/-- `BlockchainStateService.getCanonicalBlock`: all stored blocks at the
height (in insertion order), then the first canonical one. -/
def getCanonicalBlock (blocks : List BlockRecord) (blockNumber : Int) :
    Option BlockRecord :=
  (blocks.filter (fun b => b.blockNumber == blockNumber)).find? (fun b => b.isCanonical)

/-- `BlockchainStateService.getEventsByBlock`. -/
def getEventsByBlock (events : List PendingEvent) (blockNumber : Int) :
    List PendingEvent :=
  events.filter (fun e => e.blockNumber == blockNumber)

/-- The integer range `[startBlock, endBlock]` of a JavaScript
`for (let i = startBlock; i <= endBlock; i++)` loop. -/
def intRange (startBlock endBlock : Int) : List Int :=
  (List.range (endBlock + 1 - startBlock).toNat).map (fun i => startBlock + i)

/-- `ReorgDetectorService.getAffectedEvents`: collect the events of every
block in the affected range. -/
def getAffectedEvents (events : List PendingEvent) (startBlock endBlock : Int) :
    List PendingEvent :=
  (intRange startBlock endBlock).flatMap (getEventsByBlock events)

/-- The `while` loop of `ReorgDetectorService.findDivergencePoint`:
keep walking down while the height is positive, the depth is within the
1000-block bound, and the canonical record at the height exists with a
hash different from the `parentHash` of the incoming block; stop (returning
the accumulated depth) as soon as the record is missing or its hash
matches.

The loop body increments `depth`, so the guard `depth ≤ 1000` bounds the
iteration count; the structural `fuel` argument only makes that bound
syntactic.  With `fuel > (1001 - depth).toNat` — in particular at the
entry point `fuel = 1001`, `depth = 1` — the fuel can never run out
before the guard fails (`findDivergenceLoop_fuel_irrelevant` below). -/
def findDivergenceLoop (blocks : List BlockRecord) (parentHash : String) :
    Nat → Int → Int → Int
  | 0, _, depth => depth
  | fuel + 1, check, depth =>
    if check > 0 ∧ depth ≤ 1000 then
      match getCanonicalBlock blocks check with
      | some cb =>
        if cb.blockHash ≠ parentHash then
          findDivergenceLoop blocks parentHash fuel (check - 1) (depth + 1)
        else
          depth
      | none => depth
    else
      depth

/-- `ReorgDetectorService.findDivergencePoint`. -/
def findDivergencePoint (blocks : List BlockRecord) (currentBlock : BlockInfo) : Int :=
  findDivergenceLoop blocks currentBlock.parentHash 1001 (currentBlock.number - 1) 1

/-- `ReorgDetectorService.detectReorg`: `none` when no determination is
possible or the chain extends the canonical record, otherwise the
assembled `ReorgEvent`. -/
def detectReorg (blocks : List BlockRecord) (events : List PendingEvent)
    (currentBlock : BlockInfo) (previousBlockNumber : Int) : Option ReorgEvent :=
  if previousBlockNumber = 0 then
    none
  else
    match getCanonicalBlock blocks previousBlockNumber with
    | none => none
    | some expectedParent =>
      if expectedParent.blockHash = currentBlock.parentHash then
        none
      else
        let reorgDepth := findDivergencePoint blocks currentBlock
        let affectedBlockStart := previousBlockNumber - reorgDepth + 1
        let affectedBlockEnd := previousBlockNumber
        some {
          reorgDepth := reorgDepth
          affectedBlockStart := affectedBlockStart
          affectedBlockEnd := affectedBlockEnd
          orphanedEvents :=
            (getAffectedEvents events affectedBlockStart affectedBlockEnd).map
              (fun e => e.id)
          reprocessedEvents := [] }

/-- The readonly `CONFIRMATION_DEPTH` field of `ReorgDetectorService`,
as the state of one service instance. -/
structure ReorgDetectorState where
  confirmationDepth : Int
  deriving DecidableEq, Repr

/-- A freshly constructed `ReorgDetectorService` (the field initializer
sets the depth to `12`). -/
def initReorgDetector : ReorgDetectorState :=
  { confirmationDepth := 12 }

/-- `ReorgDetectorService.getConfirmationDepth`. -/
def getConfirmationDepth (s : ReorgDetectorState) : Int :=
  s.confirmationDepth

/-- `ReorgDetectorService.setConfirmationDepth`: throws for `depth < 1`;
for any other depth its body performs no assignment, so the instance is
returned unchanged. -/
def setConfirmationDepth (s : ReorgDetectorState) (depth : Int) :
    Except String ReorgDetectorState :=
  if depth < 1 then
    Except.error "Confirmation depth must be at least 1"
  else
    Except.ok s

/-- Whether an `Except` computation succeeded. -/
def exceptOk {ε α : Type} : Except ε α → Bool
  | Except.ok _ => true
  | Except.error _ => false

/-- Run a sequence of `setConfirmationDepth` calls, each thrown error
being caught by the caller (the state left as it was). -/
def runDepthCalls (s : ReorgDetectorState) (depths : List Int) : ReorgDetectorState :=
  depths.foldl
    (fun cur d =>
      match setConfirmationDepth cur d with
      | Except.ok next => next
      | Except.error _ => cur)
    s

/-- `ReorgDetectorService.calculateConfirmations`. -/
def calculateConfirmations (blockNumber headBlockNumber : Int) : Int :=
  max 0 (headBlockNumber - blockNumber)

/-- The mutable stores of the in-memory `BlockchainStateService`
(blocks, events and the reorg history; counters are omitted — no claim
reads them). -/
structure ChainStore where
  blocks : List BlockRecord
  events : List PendingEvent
  reorgHistory : List ReorgEvent
  deriving DecidableEq, Repr

/-- `BlockchainStateService.updateEventStatus` restricted to the call
shape of the reconciliation rollback: set the status of the event with
this id, leaving its confirmations as they were. -/
def setEventStatus (events : List PendingEvent) (eventId : String)
    (status : PendingStatus) : List PendingEvent :=
  events.map (fun e => if e.id == eventId then { e with status := status } else e)

/-- `ReconciliationService.rollbackAffectedEvents`: every listed event
that exists is marked `orphaned`; ids with no stored event are skipped. -/
def rollbackAffectedEvents (events : List PendingEvent) (eventIds : List String) :
    List PendingEvent :=
  eventIds.foldl
    (fun acc eventId =>
      if acc.any (fun e => e.id == eventId) then
        setEventStatus acc eventId PendingStatus.orphaned
      else
        acc)
    events

/-- `BlockchainStateService.markBlocksNonCanonical`. -/
def markBlocksNonCanonical (blocks : List BlockRecord) (blockNumbers : List Int) :
    List BlockRecord :=
  blocks.map (fun b =>
    if blockNumbers.contains b.blockNumber then { b with isCanonical := false } else b)

/-- `ReconciliationService.handleReorg`: the three sequential
state-service mutations (orphan the listed events, mark the affected
range non-canonical, append the reorg record).  In this in-memory
implementation none of the steps can fail, so the composite is a total
function. -/
def handleReorg (store : ChainStore) (reorg : ReorgEvent) : ChainStore :=
  let store1 := { store with
    events := rollbackAffectedEvents store.events reorg.orphanedEvents }
  let store2 := { store1 with
    blocks := markBlocksNonCanonical store1.blocks
      (intRange reorg.affectedBlockStart reorg.affectedBlockEnd) }
  { store2 with reorgHistory := store2.reorgHistory ++ [reorg] }

/-!
Part 3 — concrete fixtures used by witnesses and counterexamples.
-/

/-- A concrete configuration matching the defaults of the repository
(Optimism chain id 10, 12 confirmations, 5000-block batches). -/
def cfgX : EventIndexerConfig :=
  { chainId := 10, confirmationsRequired := 12, blockRangePerBatch := 5000,
    maxRetryAttempts := 3 }

/-- A concrete raw log in block 80. -/
def logX : EventLog :=
  { transactionHash := "0xt1", logIndex := 0, blockNumber := 80, topics := [],
    data := "" }

/-- A decoding oracle that always succeeds with an empty payload. -/
def parseX : EventLog → Option (List (String × String)) :=
  fun _ => some []

/-- A block-lookup oracle that answers every height. -/
def getBlockX : Int → Option ChainBlock :=
  fun n => some { number := n }

/-- A clean checkpoint row at block 79. -/
def stClean : IndexingState :=
  { chainId := 10, contractAddress := "0xc", eventType := "StakeMinted",
    lastProcessedBlockNumber := 79, lastScannedBlockNumber := 79,
    lastFinalizedBlockNumber := none, status := IndexStatus.idle,
    errorMessage := none, totalEventCount := 0, processedEventCount := 0,
    failedEventCount := 0, blockRangePerBatch := 5000,
    confirmationsRequired := 12, maxRetryAttempts := 3 }

/-- A checkpoint row still carrying the message of an earlier failure. -/
def stStale : IndexingState :=
  { stClean with status := IndexStatus.error, errorMessage := some "previous failure" }

/-- A checkpoint row already at block 100 (ahead of a head of 50). -/
def stAhead : IndexingState :=
  { stClean with lastProcessedBlockNumber := 100, lastScannedBlockNumber := 100 }

/-- A stored event in block 0 that is not finalized. -/
def evStale : IndexedEvent :=
  { eventType := "StakeMinted", contractAddress := "0xc",
    transactionHash := "0xt0", blockNumber := 0, logIndex := 0, chainId := 10,
    eventData := { transactionHash := "0xt0", logIndex := 0, blockNumber := 0,
                   topics := [], data := "" },
    parsedData := [], confirmations := 5, isFinalized := false,
    isProcessed := false, processingError := none, retryAttempts := 0 }

/-- A stored finalized event in block 95 (fewer than 12 confirmations at
head 100). -/
def evYoung : IndexedEvent :=
  { evStale with
    transactionHash := "0xt2",
    blockNumber := 95,
    eventData := { transactionHash := "0xt2", logIndex := 0, blockNumber := 95,
                   topics := [], data := "" },
    confirmations := 13,
    isFinalized := true,
    isProcessed := true }

/-- The event of block 95 after the sweep demoted it. -/
def evYoungReset : IndexedEvent :=
  { evYoung with isFinalized := false, isProcessed := false }

/-- A canonical block record used by the divergence-detection witness. -/
def blk5 : BlockRecord :=
  { id := "5:0xa", blockNumber := 5, blockHash := "0xa", parentHash := "0xq",
    timestamp := 0, isCanonical := true }

/-- An incoming block at height 6 whose parent hash matches `blk5`. -/
def blk6 : BlockInfo :=
  { number := 6, hash := "0xb", timestamp := 0, parentHash := "0xa" }

/-- One canonical block record of the deep synthetic ledger; its hash
`"h"` never matches the parent hash `"p"` of the incoming block. -/
def deepBlk (n : Nat) : BlockRecord :=
  { id := "", blockNumber := (n : Int), blockHash := "h", parentHash := "h",
    timestamp := 0, isCanonical := true }

/-- A synthetic ledger holding canonical records at heights `n, ..., 1`. -/
def deepLedger : Nat → List BlockRecord
  | 0 => []
  | n + 1 => deepBlk (n + 1) :: deepLedger n

/-- An incoming block at height 1002, deeper than the 1000-block
walk-back bound of the divergence search. -/
def deepHead : BlockInfo :=
  { number := 1002, hash := "x", timestamp := 0, parentHash := "p" }

/-!
Part 4 — theorems.

Shared helper lemmas first, then one theorem per claim (with its witness
or counterexample where required).
-/

theorem countIdentity_eq_zero_iff (store : List IndexedEvent) (txHash : String)
    (logIndex : Int) (eventType : String) :
    countIdentity store txHash logIndex eventType = 0 ↔
      ∀ e ∈ store, ¬ matchesIdentity txHash logIndex eventType e = true := by
  rw [countIdentity, List.length_eq_zero, List.filter_eq_nil_iff]

theorem countIdentity_append (s t : List IndexedEvent) (txHash : String)
    (logIndex : Int) (eventType : String) :
    countIdentity (s ++ t) txHash logIndex eventType =
      countIdentity s txHash logIndex eventType +
        countIdentity t txHash logIndex eventType := by
  simp [countIdentity, List.filter_append]

theorem matchesIdentity_createIndexedEvent (cfg : EventIndexerConfig)
    (contractAddress eventName : String) (log : EventLog)
    (parsed : List (String × String)) (confirmations : Int) :
    matchesIdentity log.transactionHash log.logIndex eventName
      (createIndexedEvent cfg contractAddress eventName log parsed confirmations) = true := by
  simp [matchesIdentity, createIndexedEvent]

/-- A store already holding the identity is returned unchanged by
`processEvent` (the early-return branch). -/
theorem processEvent_stable (cfg : EventIndexerConfig)
    (parseLog : EventLog → Option (List (String × String)))
    (getBlock : Int → Option ChainBlock)
    (contractAddress eventName : String) (log : EventLog) (blockNumber : Int)
    (store : List IndexedEvent)
    (h : 1 ≤ countIdentity store log.transactionHash log.logIndex eventName) :
    processEvent cfg parseLog getBlock contractAddress eventName log blockNumber store
      = store := by
  unfold processEvent
  cases hf : store.find? (matchesIdentity log.transactionHash log.logIndex eventName) with
  | some e => rfl
  | none =>
    exfalso
    rw [List.find?_eq_none] at hf
    have h0 : countIdentity store log.transactionHash log.logIndex eventName = 0 :=
      (countIdentity_eq_zero_iff store log.transactionHash log.logIndex eventName).mpr hf
    omega

/-- A store not holding the identity gets exactly the created record
appended (when decoding succeeds). -/
theorem processEvent_insert (cfg : EventIndexerConfig)
    (parseLog : EventLog → Option (List (String × String)))
    (getBlock : Int → Option ChainBlock)
    (contractAddress eventName : String) (log : EventLog) (blockNumber : Int)
    (store : List IndexedEvent) (parsed : List (String × String))
    (hp : parseLog log = some parsed)
    (h0 : countIdentity store log.transactionHash log.logIndex eventName = 0) :
    processEvent cfg parseLog getBlock contractAddress eventName log blockNumber store
      = store ++ [createIndexedEvent cfg contractAddress eventName log parsed
          (match getBlock log.blockNumber with
           | some b => blockNumber - b.number
           | none => 0)] := by
  unfold processEvent
  rw [List.find?_eq_none.mpr
    ((countIdentity_eq_zero_iff store log.transactionHash log.logIndex eventName).mp h0)]
  rw [hp]

/-- C1 (confirmed): persisting one logical event is idempotent.  When the
event decodes and its identity `(transactionHash, logIndex, eventType)`
is not yet stored, running `processEvent` any number `N ≥ 1` of times
leaves exactly one stored record for that identity, and one further call
(so every call after the first) returns the store completely unchanged. -/
theorem processEvent_idempotent (cfg : EventIndexerConfig)
    (parseLog : EventLog → Option (List (String × String)))
    (getBlock : Int → Option ChainBlock)
    (contractAddress eventName : String) (log : EventLog) (blockNumber : Int)
    (store : List IndexedEvent) (N : Nat)
    (hparse : parseLog log ≠ none)
    (hfresh : countIdentity store log.transactionHash log.logIndex eventName = 0)
    (hN : 1 ≤ N) :
    countIdentity
        ((processEvent cfg parseLog getBlock contractAddress eventName log blockNumber)^[N]
          store)
        log.transactionHash log.logIndex eventName = 1
    ∧ (processEvent cfg parseLog getBlock contractAddress eventName log blockNumber)
        ((processEvent cfg parseLog getBlock contractAddress eventName log blockNumber)^[N]
          store)
      = (processEvent cfg parseLog getBlock contractAddress eventName log blockNumber)^[N]
          store := by
  obtain ⟨parsed, hp⟩ : ∃ parsed, parseLog log = some parsed := by
    cases h : parseLog log with
    | none => exact absurd h hparse
    | some d => exact ⟨d, rfl⟩
  set f := processEvent cfg parseLog getBlock contractAddress eventName log blockNumber
      with hfdef
  have hone : countIdentity (f store) log.transactionHash log.logIndex eventName = 1 := by
    rw [hfdef, processEvent_insert cfg parseLog getBlock contractAddress eventName log
      blockNumber store parsed hp hfresh, countIdentity_append, hfresh]
    simp [countIdentity, matchesIdentity_createIndexedEvent]
  have hstable : f (f store) = f store := by
    rw [hfdef]
    exact processEvent_stable cfg parseLog getBlock contractAddress eventName log
      blockNumber (f store) (by omega)
  obtain ⟨k, rfl⟩ : ∃ k, N = k + 1 := ⟨N - 1, by omega⟩
  rw [Function.iterate_succ_apply, Function.iterate_fixed hstable k]
  exact ⟨hone, hstable⟩

/-- Witness for C1: three calls on the empty store with a concrete
log leave exactly one record, and a fourth call changes nothing. -/
theorem processEvent_idempotent_witness :
    parseX logX ≠ none
    ∧ countIdentity ([] : List IndexedEvent) logX.transactionHash logX.logIndex
        "StakeMinted" = 0
    ∧ countIdentity
        ((processEvent cfgX parseX getBlockX "0xc" "StakeMinted" logX 88)^[3] [])
        logX.transactionHash logX.logIndex "StakeMinted" = 1
    ∧ (processEvent cfgX parseX getBlockX "0xc" "StakeMinted" logX 88)
        ((processEvent cfgX parseX getBlockX "0xc" "StakeMinted" logX 88)^[3] [])
      = (processEvent cfgX parseX getBlockX "0xc" "StakeMinted" logX 88)^[3] [] := by
  have h := processEvent_idempotent cfgX parseX getBlockX "0xc" "StakeMinted" logX 88
    [] 3 (by decide) (by decide) (by decide)
  exact ⟨by decide, by decide, h.1, h.2⟩

/-- Successful cycle of `indexEventType` on a non-empty window: the
fetched logs are folded through `processEvent` with the window end as
the `blockNumber` argument, the checkpoint advances to the window end,
and the status becomes `idle` (nothing else on the row changes). -/
theorem indexEventType_ok (cfg : EventIndexerConfig)
    (parseLog : EventLog → Option (List (String × String)))
    (getBlock : Int → Option ChainBlock)
    (contractAddress eventName : String) (head : Int)
    (st : IndexingState) (store : List IndexedEvent) (events : List EventLog)
    (hwin : st.lastProcessedBlockNumber + 1 ≤
      min (st.lastProcessedBlockNumber + 1 + cfg.blockRangePerBatch - 1)
        (head - cfg.confirmationsRequired)) :
    indexEventType cfg parseLog getBlock (fun _ _ => Except.ok events)
      contractAddress eventName head st store
    = ({ st with
          lastProcessedBlockNumber :=
            min (st.lastProcessedBlockNumber + 1 + cfg.blockRangePerBatch - 1)
              (head - cfg.confirmationsRequired),
          status := IndexStatus.idle },
       events.foldl
        (fun acc log =>
          processEvent cfg parseLog getBlock contractAddress eventName log
            (min (st.lastProcessedBlockNumber + 1 + cfg.blockRangePerBatch - 1)
              (head - cfg.confirmationsRequired)) acc)
        store) := by
  have hcond : ¬ (st.lastProcessedBlockNumber + 1 >
      min (st.lastProcessedBlockNumber + 1 + cfg.blockRangePerBatch - 1)
        (head - cfg.confirmationsRequired)) := by omega
  simp only [indexEventType, if_neg hcond]

/-- Failed cycle of `indexEventType` on a non-empty window: the status
becomes `error` with the message recorded, and neither the checkpoint nor
the event store changes. -/
theorem indexEventType_error (cfg : EventIndexerConfig)
    (parseLog : EventLog → Option (List (String × String)))
    (getBlock : Int → Option ChainBlock)
    (contractAddress eventName : String) (head : Int)
    (st : IndexingState) (store : List IndexedEvent) (msg : String)
    (hwin : st.lastProcessedBlockNumber + 1 ≤
      min (st.lastProcessedBlockNumber + 1 + cfg.blockRangePerBatch - 1)
        (head - cfg.confirmationsRequired)) :
    indexEventType cfg parseLog getBlock (fun _ _ => Except.error msg)
      contractAddress eventName head st store
    = ({ st with status := IndexStatus.error, errorMessage := some msg }, store) := by
  have hcond : ¬ (st.lastProcessedBlockNumber + 1 >
      min (st.lastProcessedBlockNumber + 1 + cfg.blockRangePerBatch - 1)
        (head - cfg.confirmationsRequired)) := by omega
  simp only [indexEventType, if_neg hcond]

/-- C2 (amended theorem): when a cycle inserts a new event, the stored
confirmation count is `to - blockNumber` where `to` is the window end
`min (from + batchSize - 1) (headBlock - confirmationThreshold)` — the
value `indexEventType` passes to `processEvent` — not the chain head;
`finalized` is `confirmations ≥ confirmationThreshold` at insert time
(and a failed block lookup stores `0` confirmations, a case excluded here
by the `getBlock` hypothesis). -/
theorem insert_confirmations_from_window_end (cfg : EventIndexerConfig)
    (parseLog : EventLog → Option (List (String × String)))
    (getBlock : Int → Option ChainBlock)
    (contractAddress eventName : String) (head : Int)
    (st : IndexingState) (store : List IndexedEvent) (log : EventLog)
    (parsed : List (String × String)) (b : ChainBlock)
    (hp : parseLog log = some parsed)
    (hb : getBlock log.blockNumber = some b)
    (hfresh : countIdentity store log.transactionHash log.logIndex eventName = 0)
    (hwin : st.lastProcessedBlockNumber + 1 ≤
      min (st.lastProcessedBlockNumber + 1 + cfg.blockRangePerBatch - 1)
        (head - cfg.confirmationsRequired)) :
    ((indexEventType cfg parseLog getBlock (fun _ _ => Except.ok [log])
        contractAddress eventName head st store).2.map
      (fun e => (e.confirmations, e.isFinalized)))
    = store.map (fun e => (e.confirmations, e.isFinalized))
      ++ [(min (st.lastProcessedBlockNumber + 1 + cfg.blockRangePerBatch - 1)
              (head - cfg.confirmationsRequired) - b.number,
           decide (min (st.lastProcessedBlockNumber + 1 + cfg.blockRangePerBatch - 1)
              (head - cfg.confirmationsRequired) - b.number
             ≥ cfg.confirmationsRequired))] := by
  rw [indexEventType_ok cfg parseLog getBlock contractAddress eventName head st store
    [log] hwin]
  simp only [List.foldl_cons, List.foldl_nil]
  rw [processEvent_insert cfg parseLog getBlock contractAddress eventName log _ store
    parsed hp hfresh, hb]
  simp [createIndexedEvent]

/-- Witness for C2 at a concrete input: head 100, checkpoint 79, window
end `min 5079 88 = 88`, one fresh log of block 80. -/
theorem insert_confirmations_from_window_end_witness :
    (parseX logX = some [])
    ∧ (getBlockX logX.blockNumber = some { number := 80 })
    ∧ ((indexEventType cfgX parseX getBlockX (fun _ _ => Except.ok [logX])
          "0xc" "StakeMinted" 100 stClean []).2.map
        (fun e => (e.confirmations, e.isFinalized)))
      = ([] : List IndexedEvent).map (fun e => (e.confirmations, e.isFinalized)) ++
        [(min ((79 : Int) + 1 + 5000 - 1) (100 - 12) - 80,
          decide (min ((79 : Int) + 1 + 5000 - 1) (100 - 12) - 80 ≥ 12))] := by
  refine ⟨by decide, by decide, ?_⟩
  exact insert_confirmations_from_window_end cfgX parseX getBlockX "0xc" "StakeMinted"
    100 stClean [] logX [] { number := 80 } (by decide) (by decide) (by decide)
    (by decide)

/-- Counterexample to C2 as stated: with threshold 12, head 100 and a
checkpoint at 79 the window ends at 88; inserting a log of block 80
stores `confirmations = 8` and `finalized = false`, while
`headBlock - blockNumber = 20` with `20 ≥ 12` — the claimed values would
be `(20, true)`. -/
theorem insert_confirmations_counterexample :
    ((indexEventType cfgX parseX getBlockX (fun _ _ => Except.ok [logX])
        "0xc" "StakeMinted" 100 stClean []).2.map
      (fun e => (e.confirmations, e.isFinalized)))
      = [((8 : Int), false)]
    ∧ ¬ ((8 : Int) = 100 - 80)
    ∧ ((12 : Int) ≤ 100 - 80) := by
  decide

/-- C3 (amended theorem): after a confirmation sweep, every event whose
recomputed confirmations are below the threshold is unfinalized, and
every event still finalized has confirmations at or above the threshold;
but the sweep only demotes — an event that entered the sweep unfinalized
leaves it untouched even when its confirmations are at or above the
threshold, so the biconditional of the claim does not hold. -/
theorem sweep_demotes_only (cfg : EventIndexerConfig) (head : Int)
    (store : List IndexedEvent) (e : IndexedEvent) :
    (e ∈ reconcileReorgs cfg head store →
      head - e.blockNumber < cfg.confirmationsRequired → e.isFinalized = false)
    ∧ (e ∈ reconcileReorgs cfg head store →
      e.isFinalized = true → cfg.confirmationsRequired ≤ head - e.blockNumber)
    ∧ (e ∈ store → e.isFinalized = false → e ∈ reconcileReorgs cfg head store) := by
  refine ⟨?_, ?_, ?_⟩
  · intro hm hlt
    obtain ⟨e0, he0, rfl⟩ := List.mem_map.mp hm
    by_cases hc : e0.isFinalized ∧ head - e0.blockNumber < cfg.confirmationsRequired
    · simp [reconcileStep, hc]
    · simp only [reconcileStep, if_neg hc] at hlt ⊢
      cases hf : e0.isFinalized with
      | false => rfl
      | true => exact absurd ⟨hf, hlt⟩ hc
  · intro hm hfin
    obtain ⟨e0, he0, rfl⟩ := List.mem_map.mp hm
    by_cases hc : e0.isFinalized ∧ head - e0.blockNumber < cfg.confirmationsRequired
    · simp [reconcileStep, hc] at hfin
    · simp only [reconcileStep, if_neg hc] at hfin ⊢
      by_contra hlt
      exact hc ⟨by simp [hfin], by omega⟩
  · intro hm hfin
    refine List.mem_map.mpr ⟨e, hm, ?_⟩
    rw [reconcileStep, if_neg]
    simp [hfin]

/-- Witness for C3: at head 100 with threshold 12, the finalized event of
block 95 is demoted (5 confirmations) and the already-unfinalized event
of block 0 passes through unchanged. -/
theorem sweep_demotes_only_witness :
    (evYoungReset ∈ reconcileReorgs cfgX 100 [evStale, evYoung])
    ∧ ((100 : Int) - evYoungReset.blockNumber < cfgX.confirmationsRequired)
    ∧ evYoungReset.isFinalized = false
    ∧ evStale ∈ reconcileReorgs cfgX 100 [evStale, evYoung] := by
  refine ⟨by decide, by decide, ?_, ?_⟩
  · exact (sweep_demotes_only cfgX 100 [evStale, evYoung] evYoungReset).1
      (by decide) (by decide)
  · exact (sweep_demotes_only cfgX 100 [evStale, evYoung] evStale).2.2
      (by decide) (by decide)

/-- Counterexample to C3 as stated: the unfinalized event of block 0 has
100 recomputed confirmations at head 100 (well above the threshold 12),
yet the sweep leaves it `finalized = false` — the claimed biconditional
fails in the promotion direction. -/
theorem sweep_biconditional_counterexample :
    reconcileReorgs cfgX 100 [evStale] = [evStale]
    ∧ evStale.isFinalized = false
    ∧ (12 : Int) ≤ 100 - evStale.blockNumber := by
  decide

/-- C4 (amended theorem): on a non-empty window, a successful cycle
advances the checkpoint to the window end, sets status `idle` and leaves
the stored error message exactly as it was (it is NOT cleared); a
batch-level failure sets status `error`, records the message, and leaves
the checkpoint (and the event store) unchanged, so the same window is
retried next cycle. -/
theorem cycle_checkpoint_update (cfg : EventIndexerConfig)
    (parseLog : EventLog → Option (List (String × String)))
    (getBlock : Int → Option ChainBlock)
    (contractAddress eventName : String) (head : Int)
    (st : IndexingState) (store : List IndexedEvent) (msg : String)
    (events : List EventLog)
    (hwin : st.lastProcessedBlockNumber + 1 ≤
      min (st.lastProcessedBlockNumber + 1 + cfg.blockRangePerBatch - 1)
        (head - cfg.confirmationsRequired)) :
    ((indexEventType cfg parseLog getBlock (fun _ _ => Except.error msg)
        contractAddress eventName head st store).1.status = IndexStatus.error
    ∧ (indexEventType cfg parseLog getBlock (fun _ _ => Except.error msg)
        contractAddress eventName head st store).1.errorMessage = some msg
    ∧ (indexEventType cfg parseLog getBlock (fun _ _ => Except.error msg)
        contractAddress eventName head st store).1.lastProcessedBlockNumber
      = st.lastProcessedBlockNumber
    ∧ (indexEventType cfg parseLog getBlock (fun _ _ => Except.error msg)
        contractAddress eventName head st store).2 = store)
    ∧ ((indexEventType cfg parseLog getBlock (fun _ _ => Except.ok events)
        contractAddress eventName head st store).1.status = IndexStatus.idle
    ∧ (indexEventType cfg parseLog getBlock (fun _ _ => Except.ok events)
        contractAddress eventName head st store).1.lastProcessedBlockNumber
      = min (st.lastProcessedBlockNumber + 1 + cfg.blockRangePerBatch - 1)
          (head - cfg.confirmationsRequired)
    ∧ (indexEventType cfg parseLog getBlock (fun _ _ => Except.ok events)
        contractAddress eventName head st store).1.errorMessage
      = st.errorMessage) := by
  rw [indexEventType_error cfg parseLog getBlock contractAddress eventName head st store
    msg hwin,
    indexEventType_ok cfg parseLog getBlock contractAddress eventName head st store
    events hwin]
  simp

/-- Witness for C4 at a concrete input (head 100, checkpoint 79,
window `[80, 88]`). -/
theorem cycle_checkpoint_update_witness :
    ((79 : Int) + 1 ≤ min ((79 : Int) + 1 + 5000 - 1) (100 - 12))
    ∧ (indexEventType cfgX parseX getBlockX (fun _ _ => Except.error "rpc down")
        "0xc" "StakeMinted" 100 stClean []).1.status = IndexStatus.error
    ∧ (indexEventType cfgX parseX getBlockX (fun _ _ => Except.ok [])
        "0xc" "StakeMinted" 100 stClean []).1.lastProcessedBlockNumber = 88 := by
  have h := cycle_checkpoint_update cfgX parseX getBlockX "0xc" "StakeMinted" 100
    stClean [] "rpc down" [] (by decide)
  exact ⟨by decide, h.1.1, h.2.2.1⟩

/-- Counterexample to C4 as stated: a successful cycle (status `idle`,
checkpoint advanced to 88) leaves the stale message of an earlier failure
in place — the stored error message is not cleared on success. -/
theorem error_message_not_cleared_counterexample :
    (indexEventType cfgX parseX getBlockX (fun _ _ => Except.ok [])
        "0xc" "StakeMinted" 100 stStale []).1.status = IndexStatus.idle
    ∧ (indexEventType cfgX parseX getBlockX (fun _ _ => Except.ok [])
        "0xc" "StakeMinted" 100 stStale []).1.lastProcessedBlockNumber = 88
    ∧ (indexEventType cfgX parseX getBlockX (fun _ _ => Except.ok [])
        "0xc" "StakeMinted" 100 stStale []).1.errorMessage = some "previous failure" := by
  decide

/-- C5 (confirmed): for any fetch oracle, the checkpoint is
non-decreasing across a cycle, and when the window
`[lastProcessedBlock + 1, min (from + batchSize - 1) (head - threshold)]`
is empty the cycle changes nothing at all. -/
theorem checkpoint_monotone (cfg : EventIndexerConfig)
    (parseLog : EventLog → Option (List (String × String)))
    (getBlock : Int → Option ChainBlock)
    (fetchEvents : Int → Int → Except String (List EventLog))
    (contractAddress eventName : String) (head : Int)
    (st : IndexingState) (store : List IndexedEvent) :
    st.lastProcessedBlockNumber ≤
      (indexEventType cfg parseLog getBlock fetchEvents contractAddress eventName
        head st store).1.lastProcessedBlockNumber
    ∧ (st.lastProcessedBlockNumber + 1 >
        min (st.lastProcessedBlockNumber + 1 + cfg.blockRangePerBatch - 1)
          (head - cfg.confirmationsRequired) →
      indexEventType cfg parseLog getBlock fetchEvents contractAddress eventName
        head st store = (st, store)) := by
  constructor
  · by_cases hc : st.lastProcessedBlockNumber + 1 >
        min (st.lastProcessedBlockNumber + 1 + cfg.blockRangePerBatch - 1)
          (head - cfg.confirmationsRequired)
    · simp only [indexEventType, if_pos hc]
      omega
    · simp only [indexEventType, if_neg hc]
      cases hf : fetchEvents (st.lastProcessedBlockNumber + 1)
          (min (st.lastProcessedBlockNumber + 1 + cfg.blockRangePerBatch - 1)
            (head - cfg.confirmationsRequired)) with
      | error msg => simp
      | ok events =>
        simp only []
        omega
  · intro hc
    simp only [indexEventType, if_pos hc]

/-- Witness for C5: with head 50 and a checkpoint at 100 the window is
empty (`101 > min 5100 38`), so the cycle is a no-op and the checkpoint
does not decrease. -/
theorem checkpoint_monotone_witness :
    ((100 : Int) + 1 > min ((100 : Int) + 1 + 5000 - 1) (50 - 12))
    ∧ indexEventType cfgX parseX getBlockX (fun _ _ => Except.ok [])
        "0xc" "StakeMinted" 50 stAhead [] = (stAhead, [])
    ∧ (100 : Int) ≤
        (indexEventType cfgX parseX getBlockX (fun _ _ => Except.ok [])
          "0xc" "StakeMinted" 50 stAhead []).1.lastProcessedBlockNumber := by
  have h := checkpoint_monotone cfgX parseX getBlockX (fun _ _ => Except.ok [])
    "0xc" "StakeMinted" 50 stAhead []
  exact ⟨by decide, h.2 (by decide), h.1⟩

/-- `getCanonicalBlock` on a cons cell: the head answers when it sits at
the height and is canonical; otherwise the tail is consulted. -/
theorem getCanonicalBlock_cons (b : BlockRecord) (rest : List BlockRecord) (n : Int) :
    getCanonicalBlock (b :: rest) n =
      if b.blockNumber == n && b.isCanonical then some b
      else getCanonicalBlock rest n := by
  simp only [getCanonicalBlock, List.filter_cons]
  by_cases h1 : b.blockNumber == n
  · simp only [h1, if_pos]
    by_cases h2 : b.isCanonical
    · simp [h1, h2, List.find?_cons]
    · simp [h1, h2, List.find?_cons]
  · simp [h1]

/-- C6 (confirmed): with `previousBlockNumber = block.number - 1`,
`detectReorg` reports no divergence exactly when the height is the
`previousBlockNumber = 0` base case, or no canonical header is recorded
at `block.number - 1`, or the recorded canonical header hash equals the
`parentHash` of the incoming block (`Option.all` is true on `none` and
tests the hash on `some`); in every other case it returns a divergence. -/
theorem detect_divergence_nullity (blocks : List BlockRecord)
    (events : List PendingEvent) (currentBlock : BlockInfo) (prev : Int)
    (hprev : prev = currentBlock.number - 1) :
    (detectReorg blocks events currentBlock prev = none ↔
      (prev = 0 ∨
        Option.all (fun cb => cb.blockHash == currentBlock.parentHash)
          (getCanonicalBlock blocks (currentBlock.number - 1)) = true)) := by
  subst hprev
  unfold detectReorg
  by_cases h0 : currentBlock.number - 1 = 0
  · simp [h0]
  · rw [if_neg h0]
    cases hcb : getCanonicalBlock blocks (currentBlock.number - 1) with
    | none => simp [h0, Option.all]
    | some cb =>
      by_cases he : cb.blockHash = currentBlock.parentHash
      · simp [he, h0, Option.all]
      · simp [he, h0, Option.all]

/-- Witness for C6: a ledger with one canonical block of hash `"0xa"` at
height 5 and an incoming block at height 6 whose parent hash is `"0xa"`:
no divergence is reported, in agreement with the characterization. -/
theorem detect_divergence_nullity_witness :
    ((5 : Int) = blk6.number - 1)
    ∧ (detectReorg [blk5] [] blk6 5 = none ↔
        ((5 : Int) = 0 ∨
          Option.all (fun cb => cb.blockHash == blk6.parentHash)
            (getCanonicalBlock [blk5] (blk6.number - 1)) = true)) := by
  exact ⟨by decide, detect_divergence_nullity [blk5] [] blk6 5 (by decide)⟩

/-- The walk-back loop never returns less than its starting depth. -/
theorem findDivergenceLoop_ge (blocks : List BlockRecord) (parentHash : String) :
    ∀ (fuel : Nat) (check depth : Int),
      depth ≤ findDivergenceLoop blocks parentHash fuel check depth := by
  intro fuel
  induction fuel with
  | zero => intro check depth; simp [findDivergenceLoop]
  | succ n ih =>
    intro check depth
    simp only [findDivergenceLoop]
    split
    · split
      · split
        · have := ih (check - 1) (depth + 1)
          omega
        · exact le_refl depth
      · exact le_refl depth
    · exact le_refl depth

/-- The walk-back loop never exceeds 1001 when entered at a depth of at
most 1001 (the guard `depth ≤ 1000` stops any further increment). -/
theorem findDivergenceLoop_le (blocks : List BlockRecord) (parentHash : String) :
    ∀ (fuel : Nat) (check depth : Int), depth ≤ 1001 →
      findDivergenceLoop blocks parentHash fuel check depth ≤ 1001 := by
  intro fuel
  induction fuel with
  | zero => intro check depth h; simpa [findDivergenceLoop] using h
  | succ n ih =>
    intro check depth h
    simp only [findDivergenceLoop]
    split
    · rename_i hc
      split
      · split
        · exact ih (check - 1) (depth + 1) (by omega)
        · exact h
      · exact h
    · exact h

/-- The fuel plays no role as long as it dominates the room left under
the depth guard: the loop is the faithful image of the source `while`
loop, whose iteration count the guard `depth ≤ 1000` already bounds. -/
theorem findDivergenceLoop_fuel_irrelevant (blocks : List BlockRecord)
    (parentHash : String) :
    ∀ (fuelA fuelB : Nat) (check depth : Int),
      (1001 - depth).toNat < fuelA → (1001 - depth).toNat < fuelB →
      findDivergenceLoop blocks parentHash fuelA check depth
        = findDivergenceLoop blocks parentHash fuelB check depth := by
  intro fuelA
  induction fuelA with
  | zero => intro fuelB check depth hA hB; exact absurd hA (Nat.not_lt_zero _)
  | succ n ih =>
    intro fuelB check depth hA hB
    obtain ⟨m, rfl⟩ : ∃ m, fuelB = m + 1 := ⟨fuelB - 1, by omega⟩
    simp only [findDivergenceLoop]
    split
    · rename_i hc
      split
      · split
        · exact ih m (check - 1) (depth + 1) (by omega) (by omega)
        · rfl
      · rfl
    · rfl

/-- C7 (amended theorem): the backward walk is bounded — for every ledger
and incoming block, `findDivergencePoint` returns a depth between 1 and
1001; at every step it compares the canonical hash at the visited height
against the one fixed `parentHash` of the incoming block, and when the
1000-block bound is exhausted it simply returns the accumulated depth
(1001) as an ordinary result, with no fatal or operator-visible
signalling (see the counterexample). -/
theorem findDivergencePoint_bounded (blocks : List BlockRecord)
    (currentBlock : BlockInfo) :
    1 ≤ findDivergencePoint blocks currentBlock
    ∧ findDivergencePoint blocks currentBlock ≤ 1001 := by
  exact ⟨findDivergenceLoop_ge blocks currentBlock.parentHash 1001
      (currentBlock.number - 1) 1,
    findDivergenceLoop_le blocks currentBlock.parentHash 1001
      (currentBlock.number - 1) 1 (by omega)⟩

/-- `getCanonicalBlock` on the synthetic deep ledger: every height
between 1 and `n` has its canonical record. -/
theorem getCanonicalBlock_deepLedger :
    ∀ (n : Nat) (h : Int), 1 ≤ h → h ≤ (n : Int) →
      getCanonicalBlock (deepLedger n) h = some (deepBlk h.toNat) := by
  intro n
  induction n with
  | zero => intro h h1 h2; exact absurd h1 (by omega)
  | succ n ih =>
    intro h h1 h2
    rw [deepLedger, getCanonicalBlock_cons]
    by_cases he : ((n + 1 : Nat) : Int) = h
    · have ht : h.toNat = n + 1 := by omega
      rw [ht]
      rw [if_pos (by simp [deepBlk]; exact_mod_cast he)]
    · have hb : ((deepBlk (n + 1)).blockNumber == h) = false := by
        simp [deepBlk]
        omega
      rw [hb]
      simp only [Bool.false_and, if_neg Bool.false_ne_true]
      exact ih h h1 (by omega)

/-- On the deep ledger (canonical records with hash `"h"` at every
height up to 1001) the walk against parent hash `"p"` runs the full 1000
steps and returns 1001. -/
theorem deepLedger_loop :
    ∀ (fuel : Nat) (check depth : Int),
      1 ≤ depth → depth + check = 1002 → 1 ≤ check → (fuel : Int) ≥ 1002 - depth →
      findDivergenceLoop (deepLedger 1001) "p" fuel check depth = 1001 := by
  intro fuel
  induction fuel with
  | zero => intro check depth h1 h2 h3 h4; exact absurd h4 (by omega)
  | succ n ih =>
    intro check depth h1 h2 h3 h4
    simp only [findDivergenceLoop]
    by_cases hd : depth ≤ 1000
    · rw [if_pos ⟨by omega, hd⟩]
      simp only [getCanonicalBlock_deepLedger 1001 check (by omega) (by omega)]
      rw [if_pos (by simp [deepBlk])]
      exact ih (check - 1) (depth + 1) (by omega) (by omega) (by omega) (by omega)
    · rw [if_neg (by omega)]
      omega

/-- No events stored means no affected events in any range. -/
theorem getAffectedEvents_nil (startBlock endBlock : Int) :
    getAffectedEvents [] startBlock endBlock = [] := by
  simp [getAffectedEvents, getEventsByBlock]

/-- Counterexample to C7 as stated: against a ledger whose canonical
hashes disagree with the incoming parent hash for more than 1000
heights, the walk exceeds its 1000-block bound, and `detectReorg` then
returns an ordinary `ReorgEvent` of depth 1001 — the overflow is not
surfaced as a fatal, operator-visible condition, and the comparison at
every step used the one fixed incoming `parentHash`. -/
theorem walkback_overflow_silent_counterexample :
    detectReorg (deepLedger 1001) [] deepHead 1001 =
      some { reorgDepth := 1001, affectedBlockStart := 1, affectedBlockEnd := 1001,
             orphanedEvents := [], reprocessedEvents := [] }
    ∧ (1000 : Int) < 1001 := by
  constructor
  · have hcan : getCanonicalBlock (deepLedger 1001) 1001 = some (deepBlk 1001) := by
      simpa using getCanonicalBlock_deepLedger 1001 1001 (by norm_num) (by norm_num)
    have hdepth : findDivergencePoint (deepLedger 1001) deepHead = 1001 := by
      show findDivergenceLoop (deepLedger 1001) deepHead.parentHash 1001
        (deepHead.number - 1) 1 = 1001
      exact deepLedger_loop 1001 (deepHead.number - 1) 1 (by norm_num)
        (by norm_num [deepHead]) (by norm_num [deepHead]) (by norm_num)
    simp only [detectReorg, if_neg (by norm_num : ¬ (1001 : Int) = 0), hcan]
    rw [if_neg (by simp [deepBlk, deepHead])]
    rw [hdepth]
    norm_num [getAffectedEvents_nil]
  · norm_num

theorem replaceFirst_length {α : Type} (p : α → Bool) (f : α → α) :
    ∀ l : List α, (replaceFirst p f l).length = l.length := by
  intro l
  induction l with
  | nil => rfl
  | cons x xs ih =>
    simp only [replaceFirst]
    split
    · simp
    · simp [ih]

theorem find?_replaceFirst {α : Type} (p : α → Bool) (f : α → α)
    (hpf : ∀ a, p a → p (f a)) :
    ∀ (l : List α) (x : α), l.find? p = some x →
      (replaceFirst p f l).find? p = some (f x) := by
  intro l
  induction l with
  | nil => intro x h; simp at h
  | cons y ys ih =>
    intro x h
    by_cases hy : p y
    · rw [List.find?_cons_of_pos _ hy] at h
      injection h with h2
      subst h2
      simp only [replaceFirst, if_pos hy]
      rw [List.find?_cons_of_pos _ (hpf y hy)]
    · rw [List.find?_cons_of_neg _ hy] at h
      simp only [replaceFirst, if_neg hy]
      rw [List.find?_cons_of_neg _ hy]
      exact ih x h

/-- C9 (confirmed): `backfillFromBlock` fails exactly when no checkpoint
row matches `(chainId, contractAddress)` (the thrown error carries no
state change), and on success the matched row is rewound to
`lastProcessedBlock = blockNumber - 1` with status `backfilling`, with
the number of rows unchanged. -/
theorem backfill_rewinds (cfg : EventIndexerConfig) (states : List IndexingState)
    (contractAddress : String) (blockNumber : Int) :
    (exceptOk (backfillFromBlock cfg states contractAddress blockNumber) = false
      ↔ states.find? (matchesContract cfg contractAddress) = none)
    ∧ (∀ st, states.find? (matchesContract cfg contractAddress) = some st →
        Except.map
          (fun sts => ((sts.find? (matchesContract cfg contractAddress)).map
              (fun s => (s.lastProcessedBlockNumber, s.status)), sts.length))
          (backfillFromBlock cfg states contractAddress blockNumber)
        = Except.ok (some (blockNumber - 1, IndexStatus.backfilling),
            states.length)) := by
  constructor
  · unfold backfillFromBlock
    cases h : states.find? (matchesContract cfg contractAddress) with
    | none => simp [exceptOk]
    | some st => simp [exceptOk]
  · intro st h
    unfold backfillFromBlock
    simp only [h]
    have h2 := find?_replaceFirst (matchesContract cfg contractAddress)
      (fun s => { s with lastProcessedBlockNumber := blockNumber - 1,
                         status := IndexStatus.backfilling })
      (by intro a ha; simpa [matchesContract] using ha) states st h
    simp [Except.map, h2, replaceFirst_length]

/-- Witness for C9: on a one-row store the backfill to block 100 rewinds
the row to 99 and marks it `backfilling`; for an unknown contract the
call fails. -/
theorem backfill_rewinds_witness :
    (exceptOk (backfillFromBlock cfgX [stClean] "0xc" 100) = false
      ↔ ([stClean].find? (matchesContract cfgX "0xc") = none))
    ∧ Except.map
        (fun sts => ((sts.find? (matchesContract cfgX "0xc")).map
            (fun s => (s.lastProcessedBlockNumber, s.status)), sts.length))
        (backfillFromBlock cfgX [stClean] "0xc" 100)
      = Except.ok (some ((100 : Int) - 1, IndexStatus.backfilling),
          ([stClean] : List IndexingState).length)
    ∧ exceptOk (backfillFromBlock cfgX [stClean] "0xz" 100) = false := by
  refine ⟨(backfill_rewinds cfgX [stClean] "0xc" 100).1, ?_, by decide⟩
  exact (backfill_rewinds cfgX [stClean] "0xc" 100).2 stClean (by decide)

/-- C10 (confirmed): `setConfirmationDepth` throws exactly when
`depth < 1`, any accepted depth returns the instance unchanged, and
`getConfirmationDepth` yields 12 after every sequence of calls — the
setter never affects later confirmation decisions. -/
theorem set_depth_noop (s : ReorgDetectorState) (depths : List Int) (d : Int) :
    (exceptOk (setConfirmationDepth s d) = true ↔ 1 ≤ d)
    ∧ (1 ≤ d → setConfirmationDepth s d = Except.ok s)
    ∧ getConfirmationDepth (runDepthCalls initReorgDetector depths) = 12 := by
  have hrun : ∀ (s0 : ReorgDetectorState) (ds : List Int), runDepthCalls s0 ds = s0 := by
    intro s0 ds
    induction ds generalizing s0 with
    | nil => rfl
    | cons d0 ds ih =>
      have hstep :
          (match setConfirmationDepth s0 d0 with
           | Except.ok next => next
           | Except.error _ => s0) = s0 := by
        by_cases hd : d0 < 1
        · simp [setConfirmationDepth, hd]
        · simp [setConfirmationDepth, hd]
      simp only [runDepthCalls, List.foldl_cons] at ih ⊢
      rw [hstep]
      exact ih s0
  refine ⟨?_, ?_, ?_⟩
  · by_cases hd : d < 1
    · simp only [setConfirmationDepth, if_pos hd, exceptOk]
      constructor
      · intro h
        exact absurd h (by simp)
      · intro h
        exact absurd h (by omega)
    · simp only [setConfirmationDepth, if_neg hd, exceptOk]
      constructor
      · intro h
        omega
      · intro h
        trivial
  · intro hd
    unfold setConfirmationDepth
    rw [if_neg (by omega)]
  · rw [hrun]
    rfl

/-- Witness for C10: the call sequence `[0, 5, -3, 100]` (two rejected,
two accepted) leaves the depth at 12, and `setConfirmationDepth 5`
succeeds returning the unchanged instance. -/
theorem set_depth_noop_witness :
    (exceptOk (setConfirmationDepth initReorgDetector 5) = true ↔ (1 : Int) ≤ 5)
    ∧ setConfirmationDepth initReorgDetector 5 = Except.ok initReorgDetector
    ∧ getConfirmationDepth (runDepthCalls initReorgDetector [0, 5, -3, 100]) = 12 := by
  have h := set_depth_noop initReorgDetector [0, 5, -3, 100] 5
  exact ⟨h.1, h.2.1 (by norm_num), h.2.2⟩

end TruthBounty
